import Mathlib

/-!
Shallow embedding of `src/tsidpy/tsid.py` (kasium/tsid-python).

The module defines an immutable 64-bit identifier value (`TSID`) together
with byte and canonical base-32 string codecs, and a stateful generator
(`TSIDGenerator`) that packs a millisecond timestamp, a node id and a
counter into a 64-bit number.

Modelling conventions:
* Python unbounded `int` is `ℤ` (or `ℕ` where the source value is
  provably non-negative); `x & 0xffffffffffffffff` on an arbitrary `int`
  is `Int.emod x (2 ^ 64)` (identical on all integers).
* Python `float` millisecond clock readings are modelled as `ℚ`;
  `int(q)` (truncation toward zero) is `pytrunc`.
* Fallible operations return `Except PyErr`; each `PyErr` constructor
  names the exception the Python code raises at that spot.
* `TSIDGenerator.create` reads the wall clock and (on a fresh
  millisecond) the generator's `random_fn`; both readings are passed as
  explicit arguments `current_millis` and `rnd`, and the mutated
  generator state is returned alongside the produced `TSID`.
-/

namespace Tsidpy

/-- `TSID_BYTES: int = 8`. -/
def TSID_BYTES : ℕ := 8

/-- `TSID_CHARS: int = 13`. -/
def TSID_CHARS : ℕ := 13

/-- `TSID_EPOCH` = `datetime.fromisoformat('2020-01-01 00:00:00+00:00').timestamp() * 1000`,
which is exactly 1577836800000.0 ms. -/
def TSID_EPOCH : ℚ := 1577836800000

/-- `RANDOM_BITS: int = 22`. -/
def RANDOM_BITS : ℕ := 22

/-- `RANDOM_MASK: int = 0x3fffff`. -/
def RANDOM_MASK : ℕ := 0x3fffff

/-- `TSID_DEFAULT_NODE_BITS = 10`. -/
def TSID_DEFAULT_NODE_BITS : ℕ := 10

/-- `ALPHABET: str = '0123456789ABCDEFGHJKMNPQRSTVWXYZ'`. -/
def ALPHABET : List Char := "0123456789ABCDEFGHJKMNPQRSTVWXYZ".toList

/-- `__set_alphabet_values(chars, start)`: for each `i, c` in `enumerate(chars)`
set `ALPHABET_VALUES[ord(c)] = start + i` and `ALPHABET_VALUES[ord(c.upper())] = start + i`. -/
def setAlphabetValues (tbl : List ℤ) (chars : List Char) (start : ℤ) : List ℤ :=
  chars.enum.foldl
    (fun t ic =>
      (t.set ic.2.toNat (start + ic.1)).set ic.2.toUpper.toNat (start + ic.1))
    tbl

/-- `ALPHABET_VALUES`: a 128-entry table, `-1` for characters outside the
accepted set, built by the four `__set_alphabet_values` calls at module load. -/
def ALPHABET_VALUES : List ℤ :=
  setAlphabetValues
    (setAlphabetValues
      (setAlphabetValues
        (setAlphabetValues (List.replicate 128 (-1)) ("0123456789".toList) 0)
        ("abcdefghjkmnpqrstvwxyz".toList) 0xa)
      ("oi".toList) 0)
    ("l".toList) 1

/-- Exceptions raised by the embedded code paths. -/
inductive PyErr where
  /-- `ValueError("Invalid TSID string")` in `TSID.from_string`. -/
  | invalidTsidString
  /-- `ValueError('Invalid TSID bytes ...')` in `TSID.from_bytes`. -/
  | invalidTsidBytes
  /-- `IndexError` from `ALPHABET_VALUES[ord(c)]` when `ord(c) >= 128`. -/
  | indexError
  /-- `ValueError(f'Invalid node: {node}')` in `TSIDGenerator.__init__`. -/
  | invalidNode
  /-- `ValueError(f'Invalid node_bits: {node_bits}')` in `TSIDGenerator.__init__`. -/
  | invalidNodeBits
  /-- `ValueError(f'Node {node} too large ...')` in `TSIDGenerator.__init__`. -/
  | nodeTooLarge
  deriving DecidableEq

/-- The `TSID` value object: `self.__number` (kept in the low 64 bits by the
constructor) and `self._epoch` (milliseconds, `TSID_EPOCH` unless a generator
overwrites it on the value it returns). -/
structure TSID where
  number : ℕ
  epoch : ℚ
  deriving DecidableEq

/-- `TSID.__init__`: `self.__number = number & 0xffffffffffffffff`,
`self._epoch = TSID_EPOCH`. -/
def TSID.ofInt (number : ℤ) : TSID :=
  { number := (Int.emod number (2 ^ 64)).toNat, epoch := TSID_EPOCH }

/-- `TSID.timestamp` property: `self._epoch + (self.__number >> RANDOM_BITS)`. -/
def TSID.timestamp (t : TSID) : ℚ :=
  t.epoch + ((t.number >>> RANDOM_BITS : ℕ) : ℚ)

/-- `TSID.random` property: `self.__number & RANDOM_MASK`. -/
def TSID.random (t : TSID) : ℕ :=
  t.number &&& RANDOM_MASK

/-- `TSID.number` property simply unwraps `self.__number` (it is the `number`
field of the structure). -/
def TSID.getNumber (t : TSID) : ℕ :=
  t.number

/-- `TSID.__lt__(self, other)`: number comparison when `other` is a `TSID`,
otherwise `False`.  A non-`TSID` operand of arbitrary type `α` is `Sum.inr`. -/
def TSID.pyLt {α : Type} (a : TSID) (other : TSID ⊕ α) : Bool :=
  match other with
  | .inl b => decide (a.number < b.number)
  | .inr _ => false

/-- `TSID.__eq__(self, other)`: number equality when `other` is a `TSID`,
otherwise `False`. -/
def TSID.pyEq {α : Type} (a : TSID) (other : TSID ⊕ α) : Bool :=
  match other with
  | .inl b => a.number == b.number
  | .inr _ => false

/-- `TSID.to_bytes()`: `self.__number.to_bytes(TSID_BYTES, byteorder='big', signed=False)`,
i.e. the 8 big-endian base-256 digits. -/
def TSID.to_bytes (t : TSID) : List ℕ :=
  (List.range TSID_BYTES).map (fun i => t.number / 256 ^ (TSID_BYTES - 1 - i) % 256)

/-- `TSID.from_bytes(bytes)`: length check, then big-endian unsigned decode
(`int.from_bytes(bytes, byteorder='big', signed=False)`) wrapped in `TSID(...)`. -/
def TSID.from_bytes (b : List ℕ) : Except PyErr TSID :=
  if b.length ≠ TSID_BYTES then .error .invalidTsidBytes
  else .ok (TSID.ofInt ((b.foldl (fun acc x => acc * 256 + x) 0 : ℕ) : ℤ))

/-- The bit offsets `range(60, -5, -5)` used by both canonical codecs. -/
def canonicalOffsets : List ℕ := [60, 55, 50, 45, 40, 35, 30, 25, 20, 15, 10, 5, 0]

/-- `TSID._to_canonical_string()`:
`''.join(ALPHABET[self.__number >> i & 0x1f] for i in range(60, -5, -5))`.
The index is always `< 32 = len(ALPHABET)`, so the `getD` default is never used. -/
def TSID.to_canonical_string (t : TSID) : List Char :=
  canonicalOffsets.map (fun i => ALPHABET.getD (t.number >>> i &&& 0x1f) ' ')

/-- `ALPHABET_VALUES[ord(c)]`: raises `IndexError` when `ord(c) >= 128`
(the table has 128 entries); otherwise yields the stored value, which is `-1`
for an ASCII character outside the accepted set. -/
def alphabetValueAt (c : Char) : Except PyErr ℤ :=
  if c.toNat < 128 then .ok (ALPHABET_VALUES.getD c.toNat (-1))
  else .error .indexError

/-- `sum(ALPHABET_VALUES[ord(value[i])] << h for i, h in enumerate(range(60, -5, -5)))`:
the character/offset pairs are consumed left to right and the first
`IndexError` propagates. -/
def canonicalSum : List (Char × ℕ) → Except PyErr ℤ
  | [] => .ok 0
  | (c, h) :: rest =>
    match alphabetValueAt c with
    | .error e => .error e
    | .ok v =>
      match canonicalSum rest with
      | .error e => .error e
      | .ok s => .ok (v * 2 ^ h + s)

/-- `TSID.from_string(value, fmt)` for `fmt` in `{'S', 's'}` (both select the
same match arm): length check against `TSID_CHARS`, then the alphabet-table
accumulation, then `TSID(number)`.  The other formats delegate to the external
`basen` codec and are outside the embedded core. -/
def TSID.from_string_canonical (value : List Char) : Except PyErr TSID :=
  if value.length ≠ TSID_CHARS then .error .invalidTsidString
  else
    match canonicalSum (value.zip canonicalOffsets) with
    | .error e => .error e
    | .ok number => .ok (TSID.ofInt number)

/-- Python `int(x)` on a real value truncates toward zero. -/
def pytrunc (q : ℚ) : ℤ :=
  if q < 0 then ⌈q⌉ else ⌊q⌋

/-- The immutable configuration of a `TSIDGenerator`: the resolved
non-negative `self.node`, the validated `self._node_bits` and `self._epoch`. -/
structure GenParams where
  node : ℕ
  node_bits : ℕ
  epoch : ℚ
  deriving DecidableEq

/-- `self._counter_bits = RANDOM_BITS - node_bits`. -/
def GenParams.counter_bits (p : GenParams) : ℕ :=
  RANDOM_BITS - p.node_bits

/-- `self._counter_mask = RANDOM_MASK >> node_bits`. -/
def GenParams.counter_mask (p : GenParams) : ℕ :=
  RANDOM_MASK >>> p.node_bits

/-- `self._node_mask = RANDOM_MASK >> self._counter_bits`. -/
def GenParams.node_mask (p : GenParams) : ℕ :=
  RANDOM_MASK >>> p.counter_bits

/-- The mutable state of a `TSIDGenerator`: `self._millis` and `self.counter`. -/
structure GenState where
  millis : ℚ
  counter : ℕ
  deriving DecidableEq

/-- `True` iff `node is not None and node < 0`. -/
def nodeNegative : Option ℤ → Bool
  | some n => decide (n < 0)
  | none => false

/-- `TSIDGenerator.__init__(node, node_bits, epoch, random_fn)`.
`rnd20` models the `random.getrandbits(20)` draw used when `node is None`
(always `< 2 ^ 20`); `rndInit` models the `self.random_fn(self._counter_bits)`
seed of `self.counter`; `now` models the `time.time() * 1000` reading stored
in `self._millis`.  The `some n` branch of `resolved` is reached only after
the `node < 0` guard, so `Int.toNat` is exact there. -/
def TSIDGenerator.init (node : Option ℤ) (node_bits : ℤ) (epoch : ℚ)
    (rnd20 : ℕ) (rndInit : ℕ) (now : ℚ) : Except PyErr (GenParams × GenState) :=
  if nodeNegative node then .error .invalidNode
  else if node_bits < 0 ∨ 20 < node_bits then .error .invalidNodeBits
  else
    let resolved : ℕ :=
      match node with
      | none => rnd20 >>> (20 - node_bits).toNat
      | some n => n.toNat
    if resolved >>> node_bits.toNat ≠ 0 then .error .nodeTooLarge
    else
      .ok ({ node := resolved, node_bits := node_bits.toNat, epoch := epoch },
           { millis := now, counter := rndInit })

/-- Lines 457-463 of `tsid.py`: pack `(self._millis, self.node, self.counter)`
into a `TSID` and overwrite its `_epoch` with the generator's. -/
def packResult (p : GenParams) (s : GenState) : TSID :=
  let millis : ℤ := pytrunc (s.millis - p.epoch) * 2 ^ RANDOM_BITS
  let node : ℕ := (p.node &&& p.node_mask) <<< p.counter_bits
  let counter : ℕ := s.counter &&& p.counter_mask
  let result := TSID.ofInt (millis + node + counter)
  { result with epoch := p.epoch }

/-- `TSIDGenerator.create()`: `current_millis` is this call's
`time.time() * 1000` reading and `rnd` is the value `self.random_fn` would
return, consumed only on the fresh-millisecond branch. -/
def TSIDGenerator.create (p : GenParams) (s : GenState) (current_millis : ℚ)
    (rnd : ℕ) : GenState × TSID :=
  let s' : GenState :=
    if current_millis - s.millis < 1 then
      let c := s.counter + 1
      if c >>> p.counter_bits ≠ 0 then { millis := s.millis + 1, counter := 0 }
      else { millis := s.millis, counter := c }
    else
      { millis := current_millis, counter := rnd &&& p.counter_mask }
  (s', packResult p s')

/-- The generator state after `k` serialized `create()` calls that all observe
the clock reading `now` and whose `random_fn` always returns `0`. -/
def runGen (p : GenParams) (s : GenState) (now : ℚ) : ℕ → GenState
  | 0 => s
  | k + 1 => (TSIDGenerator.create p (runGen p s now k) now 0).1

/-- The accumulated canonical value of a 13-character string as described by
the spec: the 13 five-bit table values at offsets 60 down to 0. -/
def canonicalValue (value : List Char) : ℤ :=
  ((value.zip canonicalOffsets).map
    (fun pr => ALPHABET_VALUES.getD pr.1.toNat (-1) * 2 ^ pr.2)).sum

/-- A character the canonical decoder accepts: an ASCII character whose
`ALPHABET_VALUES` entry is not the `-1` sentinel. -/
def acceptedChar (c : Char) : Prop :=
  c.toNat < 128 ∧ ALPHABET_VALUES.getD c.toNat (-1) ≠ -1

instance (c : Char) : Decidable (acceptedChar c) := by
  unfold acceptedChar
  infer_instance

/-! ### Helper lemmas -/

theorem mask_shift_all : ∀ k < 23, RANDOM_MASK >>> k = 2 ^ (22 - k) - 1 := by decide

theorem counter_mask_eq (p : GenParams) (h : p.node_bits ≤ 20) :
    p.counter_mask = 2 ^ p.counter_bits - 1 := by
  have := mask_shift_all p.node_bits (by omega)
  simpa [GenParams.counter_mask, GenParams.counter_bits, RANDOM_BITS] using this

theorem node_mask_eq (p : GenParams) (h : p.node_bits ≤ 20) :
    p.node_mask = 2 ^ p.node_bits - 1 := by
  have hcb : p.counter_bits = 22 - p.node_bits := by
    simp [GenParams.counter_bits, RANDOM_BITS]
  have := mask_shift_all p.counter_bits (by omega)
  rw [GenParams.node_mask, this]
  congr 2
  omega

theorem and_mask_eq_mod (x m : ℕ) : x &&& (2 ^ m - 1) = x % 2 ^ m :=
  Nat.and_pow_two_sub_one_eq_mod x m

theorem and_31_eq_mod (x : ℕ) : x &&& 31 = x % 32 := by
  have := Nat.and_pow_two_sub_one_eq_mod x 5
  norm_num at this
  exact this

theorem ofInt_number_of_nonneg (n : ℤ) (h0 : 0 ≤ n) (h : n < 2 ^ 64) :
    (TSID.ofInt n).number = n.toNat := by
  unfold TSID.ofInt
  have hmod : Int.emod n (2 ^ 64) = n := Int.emod_eq_of_lt h0 h
  rw [hmod]

theorem ofInt_number_nat (n : ℕ) (h : n < 2 ^ 64) :
    (TSID.ofInt (n : ℤ)).number = n := by
  rw [ofInt_number_of_nonneg (n : ℤ) (by positivity) (by exact_mod_cast h)]
  simp

theorem pytrunc_of_nonneg (q : ℚ) (h : 0 ≤ q) : pytrunc q = ⌊q⌋ := by
  simp [pytrunc, not_lt.mpr h]

theorem emod_eq_mod (a b : ℤ) : Int.emod a b = a % b := rfl

set_option maxRecDepth 40000 in
theorem table_entry_range :
    ∀ i < 128, -1 ≤ ALPHABET_VALUES.getD i (-1) ∧ ALPHABET_VALUES.getD i (-1) ≤ 31 := by
  decide

set_option maxRecDepth 40000 in
theorem alphabet_decode_encode :
    ∀ d < 32, ALPHABET_VALUES.getD ((ALPHABET.getD d ' ').toNat) (-1) = (d : ℤ) := by
  decide

set_option maxRecDepth 40000 in
theorem alphabet_char_accepted : ∀ d < 32, acceptedChar (ALPHABET.getD d ' ') := by
  decide

theorem alphabetValueAt_encode (x : ℕ) :
    alphabetValueAt (ALPHABET.getD (x &&& 31) ' ') = .ok ((x &&& 31 : ℕ) : ℤ) := by
  have h32 : x &&& 31 < 32 := by
    rw [and_31_eq_mod]
    exact Nat.mod_lt _ (by norm_num)
  have hacc := alphabet_char_accepted _ h32
  have hdec := alphabet_decode_encode _ h32
  unfold alphabetValueAt
  rw [if_pos hacc.1, hdec]

theorem canonicalSum_ok (l : List (Char × ℕ)) (hall : ∀ pr ∈ l, acceptedChar pr.1) :
    canonicalSum l
      = .ok ((l.map (fun pr => ALPHABET_VALUES.getD pr.1.toNat (-1) * 2 ^ pr.2)).sum) := by
  induction l with
  | nil => rfl
  | cons hd tl ih =>
    have hhd := hall hd (List.mem_cons_self hd tl)
    have htl : ∀ pr ∈ tl, acceptedChar pr.1 := fun pr hpr => hall pr (List.mem_cons_of_mem hd hpr)
    obtain ⟨c, o⟩ := hd
    have hv : alphabetValueAt c = .ok (ALPHABET_VALUES.getD c.toNat (-1)) := by
      unfold alphabetValueAt
      rw [if_pos hhd.1]
    simp only [canonicalSum, hv, ih htl, List.map_cons, List.sum_cons]

/-! ### Claim theorems -/

/-- C7: the Identifier Value constructor is a total function (never fails)
and truncates its argument to the low 64 bits: for every integer `n`,
`TSID(n)` equals `TSID(n & 0xFFFFFFFFFFFFFFFF)` — on integers the Python
mask `n & 0xffffffffffffffff` is exactly `Int.emod n (2 ^ 64)` — and the
stored number always fits in 64 bits. -/
theorem tsid_ctor_truncates_to_64_bits (n : ℤ) :
    TSID.ofInt n = TSID.ofInt (Int.emod n (2 ^ 64)) ∧
    (TSID.ofInt n).number < 2 ^ 64 := by
  have h1 : (0 : ℤ) ≤ Int.emod n (2 ^ 64) := Int.emod_nonneg n (by norm_num)
  have h2 : Int.emod n (2 ^ 64) < 2 ^ 64 := Int.emod_lt_of_pos n (by norm_num)
  constructor
  · have hmm : Int.emod (Int.emod n (2 ^ 64)) (2 ^ 64) = Int.emod n (2 ^ 64) :=
      Int.emod_emod_of_dvd n dvd_rfl
    unfold TSID.ofInt
    rw [hmm]
  · show (Int.emod n (2 ^ 64)).toNat < 2 ^ 64
    omega

/-- C9: equality and strict ordering of Identifier Values are decided by the
stored number alone, and comparing against a value of any non-`TSID` type
returns "not equal" / "not less-than" without raising (both dunder methods
are total functions). -/
theorem tsid_eq_lt_by_number {α : Type} (a b : TSID) (x : α) :
    (TSID.pyEq a (Sum.inl b : TSID ⊕ α) = true ↔ a.number = b.number) ∧
    (TSID.pyLt a (Sum.inl b : TSID ⊕ α) = true ↔ a.number < b.number) ∧
    TSID.pyEq a (.inr x) = false ∧
    TSID.pyLt a (.inr x) = false := by
  refine ⟨?_, ?_, rfl, rfl⟩ <;> simp [TSID.pyEq, TSID.pyLt]

/-- C4 exhibit: `from_string('U000000000000', 'S')` does NOT raise even though
`U` is outside the accepted alphabet.  `ALPHABET_VALUES[ord('U')]` is the `-1`
sentinel, the decoder never checks for it, and Python's `(-1) << 60` is legal,
so the call silently returns `TSID((-1 << 60) & 0xffffffffffffffff)`, i.e. the
value `0xF000000000000000`. -/
theorem from_string_silently_accepts_invalid_ascii :
    TSID.from_string_canonical ("U000000000000".toList)
      = .ok { number := 0xf000000000000000, epoch := TSID_EPOCH } := rfl

/-- C8: `to_bytes()` always returns exactly 8 byte values (each `< 256`);
`from_bytes` fails with the invalid-length `ValueError` exactly when the
input length differs from 8; and the byte round-trip is the identity on
64-bit constructor values. -/
theorem bytes_roundtrip (t : TSID) (b : List ℕ) (n : ℕ) (h : n < 2 ^ 64) :
    (TSID.to_bytes t).length = 8 ∧
    (∀ y ∈ TSID.to_bytes t, y < 256) ∧
    (TSID.from_bytes b = .error .invalidTsidBytes ↔ b.length ≠ 8) ∧
    TSID.from_bytes (TSID.to_bytes (TSID.ofInt (n : ℤ))) = .ok (TSID.ofInt (n : ℤ)) := by
  have hnum := ofInt_number_nat n h
  refine ⟨by simp [TSID.to_bytes, TSID_BYTES], ?_, ?_, ?_⟩
  · intro y hy
    simp only [TSID.to_bytes, List.mem_map] at hy
    obtain ⟨i, _, rfl⟩ := hy
    exact Nat.mod_lt _ (by norm_num)
  · by_cases hl : b.length = 8
    · simp [TSID.from_bytes, TSID_BYTES, hl]
    · simp [TSID.from_bytes, TSID_BYTES, hl]
  · have hlen : (TSID.to_bytes (TSID.ofInt (n : ℤ))).length = 8 := by
      simp [TSID.to_bytes, TSID_BYTES]
    unfold TSID.from_bytes
    rw [if_neg (by simp [hlen, TSID_BYTES])]
    have harg : (TSID.to_bytes (TSID.ofInt (n : ℤ))).foldl
        (fun acc x => acc * 256 + x) 0 = n := by
      have hr : List.range TSID_BYTES = [0, 1, 2, 3, 4, 5, 6, 7] := rfl
      unfold TSID.to_bytes
      rw [hr, hnum]
      simp only [List.map, List.foldl, TSID_BYTES]
      omega
    rw [harg]

/-- C10: values produced by the constructor, `from_bytes` and the canonical
`from_string` all carry the fixed default epoch `TSID_EPOCH` (2020-01-01 in
ms), so their `timestamp` accessor returns `TSID_EPOCH + (raw >> 22)`
regardless of which generator produced the underlying number; only a value
returned directly by `TSIDGenerator.create` carries that generator's epoch. -/
theorem epoch_defaults (n : ℤ) (b : List ℕ) (v : List Char) (t u : TSID)
    (hb : TSID.from_bytes b = .ok t) (hv : TSID.from_string_canonical v = .ok u)
    (p : GenParams) (s : GenState) (now : ℚ) (rnd : ℕ) :
    (TSID.ofInt n).epoch = TSID_EPOCH ∧
    t.epoch = TSID_EPOCH ∧
    u.epoch = TSID_EPOCH ∧
    (TSID.ofInt n).timestamp = TSID_EPOCH + (((TSID.ofInt n).number >>> 22 : ℕ) : ℚ) ∧
    t.timestamp = TSID_EPOCH + ((t.number >>> 22 : ℕ) : ℚ) ∧
    u.timestamp = TSID_EPOCH + ((u.number >>> 22 : ℕ) : ℚ) ∧
    ((TSIDGenerator.create p s now rnd).2).epoch = p.epoch := by
  have ht : t.epoch = TSID_EPOCH := by
    unfold TSID.from_bytes at hb
    split at hb
    · exact absurd hb (by simp)
    · simp only [Except.ok.injEq] at hb
      rw [← hb]
      rfl
  have hu : u.epoch = TSID_EPOCH := by
    unfold TSID.from_string_canonical at hv
    split at hv
    · exact absurd hv (by simp)
    · split at hv
      · exact absurd hv (by simp)
      · simp only [Except.ok.injEq] at hv
        rw [← hv]
        rfl
  refine ⟨rfl, ht, hu, ?_, ?_, ?_, ?_⟩
  · simp [TSID.timestamp, TSID.ofInt, RANDOM_BITS]
  · simp [TSID.timestamp, ht, RANDOM_BITS]
  · simp [TSID.timestamp, hu, RANDOM_BITS]
  · simp [TSIDGenerator.create, packResult]

/-- C5: for every 13-character string over the accepted canonical alphabet
(either case, aliases included) `from_string(value, 'S')` never fails and
returns a `TSID` whose raw number is the accumulated 65-bit value (13
five-bit groups at offsets 60 down to 0) reduced to the low 64 bits; a top
symbol of value 16-31 is silently truncated by that reduction, not
rejected. -/
theorem from_string_valid_never_fails (value : List Char)
    (h13 : value.length = 13) (hall : ∀ c ∈ value, acceptedChar c) :
    TSID.from_string_canonical value = .ok (TSID.ofInt (canonicalValue value)) ∧
    0 ≤ canonicalValue value ∧
    (TSID.ofInt (canonicalValue value)).number = (canonicalValue value).toNat % 2 ^ 64 := by
  have hall' : ∀ pr ∈ value.zip canonicalOffsets, acceptedChar pr.1 := by
    intro pr hpr
    exact hall pr.1 (List.of_mem_zip hpr).1
  have hsum := canonicalSum_ok _ hall'
  have hnn : 0 ≤ canonicalValue value := by
    apply List.sum_nonneg
    intro x hx
    simp only [List.mem_map] at hx
    obtain ⟨pr, hpr, rfl⟩ := hx
    have hacc := hall' pr hpr
    have hrange := table_entry_range pr.1.toNat hacc.1
    have hpos : 0 ≤ ALPHABET_VALUES.getD pr.1.toNat (-1) := by
      rcases lt_or_eq_of_le hrange.1 with hlt | heq
      · omega
      · exact absurd heq.symm hacc.2
    positivity
  refine ⟨?_, hnn, ?_⟩
  · unfold TSID.from_string_canonical
    rw [if_neg (by simp [h13, TSID_CHARS])]
    rw [hsum]
    rfl
  · show ((canonicalValue value) % (2 ^ 64 : ℤ)).toNat = (canonicalValue value).toNat % 2 ^ 64
    omega

/-- Witness for C5 at `'ZZZZZZZZZZZZZ'`: all 13 symbols value 31, accumulated
value `2 ^ 65 - 1`, raw masked to `2 ^ 64 - 1` (the top symbol is 31 ≥ 16 and
is silently truncated). -/
theorem from_string_valid_never_fails_witness :
    ("ZZZZZZZZZZZZZ".toList.length = 13) ∧
    (∀ c ∈ "ZZZZZZZZZZZZZ".toList, acceptedChar c) ∧
    (TSID.from_string_canonical ("ZZZZZZZZZZZZZ".toList)
       = .ok (TSID.ofInt (canonicalValue ("ZZZZZZZZZZZZZ".toList))) ∧
     0 ≤ canonicalValue ("ZZZZZZZZZZZZZ".toList) ∧
     (TSID.ofInt (canonicalValue ("ZZZZZZZZZZZZZ".toList))).number
       = (canonicalValue ("ZZZZZZZZZZZZZ".toList)).toNat % 2 ^ 64) :=
  ⟨rfl, by decide, from_string_valid_never_fails ("ZZZZZZZZZZZZZ".toList) rfl (by decide)⟩

theorem canonicalSum_encode (m : ℕ) (l : List ℕ) :
    canonicalSum ((l.map (fun i => ALPHABET.getD (m >>> i &&& 0x1f) ' ')).zip l)
      = .ok ((l.map (fun i => ((m >>> i &&& 0x1f : ℕ) : ℤ) * 2 ^ i)).sum) := by
  induction l with
  | nil => rfl
  | cons a t ih =>
    simp only [List.zip] at ih ⊢
    simp only [List.map_cons, List.zipWith_cons_cons, canonicalSum, alphabetValueAt_encode,
      ih, List.sum_cons]

/-- C2: decoding the canonical string of a 64-bit value recovers it exactly:
for every `n < 2 ^ 64`, `from_string(to_string(TSID(n), 'S'), 'S').number == n`. -/
theorem canonical_string_roundtrip (n : ℕ) (h : n < 2 ^ 64) :
    TSID.from_string_canonical (TSID.to_canonical_string (TSID.ofInt (n : ℤ)))
      = .ok (TSID.ofInt (n : ℤ)) ∧
    (TSID.ofInt (n : ℤ)).number = n := by
  have hnum := ofInt_number_nat n h
  refine ⟨?_, hnum⟩
  unfold TSID.from_string_canonical TSID.to_canonical_string
  rw [hnum]
  rw [if_neg (by simp [canonicalOffsets, TSID_CHARS])]
  rw [canonicalSum_encode n canonicalOffsets]
  show Except.ok (TSID.ofInt _) = _
  simp only [Except.ok.injEq]
  congr 1
  simp only [canonicalOffsets, List.map_cons, List.map_nil, List.sum_cons, List.sum_nil,
    and_31_eq_mod, Nat.shiftRight_eq_div_pow]
  have h0 : n / 2 ^ 0 % 32 * 2 ^ 0 + 0 = n % 2 ^ 5 := by omega
  have h1 : n / 2 ^ 5 % 32 * 2 ^ 5 + n % 2 ^ 5 = n % 2 ^ 10 := by omega
  have h2 : n / 2 ^ 10 % 32 * 2 ^ 10 + n % 2 ^ 10 = n % 2 ^ 15 := by omega
  have h3 : n / 2 ^ 15 % 32 * 2 ^ 15 + n % 2 ^ 15 = n % 2 ^ 20 := by omega
  have h4 : n / 2 ^ 20 % 32 * 2 ^ 20 + n % 2 ^ 20 = n % 2 ^ 25 := by omega
  have h5 : n / 2 ^ 25 % 32 * 2 ^ 25 + n % 2 ^ 25 = n % 2 ^ 30 := by omega
  have h6 : n / 2 ^ 30 % 32 * 2 ^ 30 + n % 2 ^ 30 = n % 2 ^ 35 := by omega
  have h7 : n / 2 ^ 35 % 32 * 2 ^ 35 + n % 2 ^ 35 = n % 2 ^ 40 := by omega
  have h8 : n / 2 ^ 40 % 32 * 2 ^ 40 + n % 2 ^ 40 = n % 2 ^ 45 := by omega
  have h9 : n / 2 ^ 45 % 32 * 2 ^ 45 + n % 2 ^ 45 = n % 2 ^ 50 := by omega
  have h10 : n / 2 ^ 50 % 32 * 2 ^ 50 + n % 2 ^ 50 = n % 2 ^ 55 := by omega
  have h11 : n / 2 ^ 55 % 32 * 2 ^ 55 + n % 2 ^ 55 = n % 2 ^ 60 := by omega
  have h12 : n / 2 ^ 60 % 32 * 2 ^ 60 + n % 2 ^ 60 = n % 2 ^ 65 := by omega
  have h13 : n % 2 ^ 65 = n := by omega
  have key : n / 2 ^ 60 % 32 * 2 ^ 60 + (n / 2 ^ 55 % 32 * 2 ^ 55 +
      (n / 2 ^ 50 % 32 * 2 ^ 50 + (n / 2 ^ 45 % 32 * 2 ^ 45 +
      (n / 2 ^ 40 % 32 * 2 ^ 40 + (n / 2 ^ 35 % 32 * 2 ^ 35 +
      (n / 2 ^ 30 % 32 * 2 ^ 30 + (n / 2 ^ 25 % 32 * 2 ^ 25 +
      (n / 2 ^ 20 % 32 * 2 ^ 20 + (n / 2 ^ 15 % 32 * 2 ^ 15 +
      (n / 2 ^ 10 % 32 * 2 ^ 10 + (n / 2 ^ 5 % 32 * 2 ^ 5 +
      (n / 2 ^ 0 % 32 * 2 ^ 0 + 0)))))))))))) = n := by
    rw [h0, h1, h2, h3, h4, h5, h6, h7, h8, h9, h10, h11, h12, h13]
  exact_mod_cast key

/-- Witness for C2 at `n = 0xffcafefabadabeef`. -/
theorem canonical_string_roundtrip_witness :
    (0xffcafefabadabeef : ℕ) < 2 ^ 64 ∧
    (TSID.from_string_canonical
        (TSID.to_canonical_string (TSID.ofInt ((0xffcafefabadabeef : ℕ) : ℤ)))
       = .ok (TSID.ofInt ((0xffcafefabadabeef : ℕ) : ℤ)) ∧
     (TSID.ofInt ((0xffcafefabadabeef : ℕ) : ℤ)).number = 0xffcafefabadabeef) :=
  ⟨by norm_num, canonical_string_roundtrip 0xffcafefabadabeef (by norm_num)⟩

/-- Witness for C8 at `t = TSID(5)`, `b = [1, 2, 3]`, `n = 0xffcafefabadabeef`. -/
theorem bytes_roundtrip_witness :
    (0xffcafefabadabeef : ℕ) < 2 ^ 64 ∧
    ((TSID.to_bytes (TSID.ofInt 5)).length = 8 ∧
     (∀ y ∈ TSID.to_bytes (TSID.ofInt 5), y < 256) ∧
     (TSID.from_bytes [1, 2, 3] = .error .invalidTsidBytes ↔
       ([1, 2, 3] : List ℕ).length ≠ 8) ∧
     TSID.from_bytes (TSID.to_bytes (TSID.ofInt ((0xffcafefabadabeef : ℕ) : ℤ)))
       = .ok (TSID.ofInt ((0xffcafefabadabeef : ℕ) : ℤ))) :=
  ⟨by norm_num, bytes_roundtrip (TSID.ofInt 5) [1, 2, 3] 0xffcafefabadabeef (by norm_num)⟩

/-- Witness for C10 at eight zero bytes, thirteen `'0'` characters, and a
generator with custom epoch `0`. -/
theorem epoch_defaults_witness :
    TSID.from_bytes [0, 0, 0, 0, 0, 0, 0, 0] = .ok (TSID.ofInt 0) ∧
    TSID.from_string_canonical ("0000000000000".toList) = .ok (TSID.ofInt 0) ∧
    ((TSID.ofInt 3).epoch = TSID_EPOCH ∧
     (TSID.ofInt 0).epoch = TSID_EPOCH ∧
     (TSID.ofInt 0).epoch = TSID_EPOCH ∧
     (TSID.ofInt 3).timestamp = TSID_EPOCH + (((TSID.ofInt 3).number >>> 22 : ℕ) : ℚ) ∧
     (TSID.ofInt 0).timestamp = TSID_EPOCH + (((TSID.ofInt 0).number >>> 22 : ℕ) : ℚ) ∧
     (TSID.ofInt 0).timestamp = TSID_EPOCH + (((TSID.ofInt 0).number >>> 22 : ℕ) : ℚ) ∧
     ((TSIDGenerator.create ⟨1, 2, 0⟩ ⟨0, 0⟩ 0 0).2).epoch = (⟨1, 2, 0⟩ : GenParams).epoch) :=
  ⟨rfl, rfl,
   epoch_defaults 3 [0, 0, 0, 0, 0, 0, 0, 0] ("0000000000000".toList)
     (TSID.ofInt 0) (TSID.ofInt 0) rfl rfl ⟨1, 2, 0⟩ ⟨0, 0⟩ 0 0⟩

/-- C6: with a non-negative (or absent) requested node, construction fails
with the invalid-node-bits `ValueError` exactly when `node_bits` lies outside
0-20; it fails with the node-too-large `ValueError` exactly when `node_bits`
is in range but the resolved node does not fit in `node_bits` bits (a node
derived from the 20-bit random draw always fits); and otherwise construction
succeeds. -/
theorem generator_init_validation (node : Option ℤ) (node_bits : ℤ) (epoch : ℚ)
    (rnd20 rndInit : ℕ) (now : ℚ)
    (hnode : ∀ m, node = some m → 0 ≤ m) (hr : rnd20 < 2 ^ 20) :
    (TSIDGenerator.init node node_bits epoch rnd20 rndInit now = .error .invalidNodeBits
       ↔ (node_bits < 0 ∨ 20 < node_bits)) ∧
    (TSIDGenerator.init node node_bits epoch rnd20 rndInit now = .error .nodeTooLarge
       ↔ (0 ≤ node_bits ∧ node_bits ≤ 20 ∧
           ∃ m, node = some m ∧ m.toNat >>> node_bits.toNat ≠ 0)) ∧
    ((0 ≤ node_bits ∧ node_bits ≤ 20 ∧
        (∀ m, node = some m → m.toNat >>> node_bits.toNat = 0)) →
      ∃ g, TSIDGenerator.init node node_bits epoch rnd20 rndInit now = .ok g) := by
  have hneg : nodeNegative node = false := by
    cases node with
    | none => rfl
    | some m =>
      simp only [nodeNegative, decide_eq_false_iff_not, not_lt]
      exact hnode m rfl
  by_cases hb : node_bits < 0 ∨ 20 < node_bits
  · refine ⟨by simp [TSIDGenerator.init, hneg, hb], ?_, ?_⟩
    · simp only [TSIDGenerator.init, hneg, Bool.false_eq_true, if_false, if_pos hb]
      constructor
      · intro hcontr
        exact absurd hcontr (by simp)
      · intro hcontr
        omega
    · intro hcontr
      omega
  · push_neg at hb
    have hcond : ¬(node_bits < 0 ∨ 20 < node_bits) := by omega
    cases node with
    | none =>
      have hres : (rnd20 >>> (20 - node_bits).toNat) >>> node_bits.toNat = 0 := by
        have he : (20 - node_bits).toNat + node_bits.toNat = 20 := by omega
        simp only [Nat.shiftRight_eq_div_pow, Nat.div_div_eq_div_mul, ← pow_add, he]
        exact Nat.div_eq_of_lt hr
      refine ⟨?_, ?_, ?_⟩
      · simp only [TSIDGenerator.init, hneg, Bool.false_eq_true, if_false, if_neg hcond,
          hres, ne_eq, not_true_eq_false, reduceIte, not_false_eq_true]
        simp
        omega
      · simp only [TSIDGenerator.init, hneg, Bool.false_eq_true, if_false, if_neg hcond,
          hres, ne_eq, not_true_eq_false, reduceIte, not_false_eq_true]
        simp
      · intro _
        refine ⟨({ node := rnd20 >>> (20 - node_bits).toNat, node_bits := node_bits.toNat,
                   epoch := epoch }, { millis := now, counter := rndInit }), ?_⟩
        simp only [TSIDGenerator.init, hneg, Bool.false_eq_true, if_false, if_neg hcond,
          hres, ne_eq, not_true_eq_false, reduceIte, not_false_eq_true]
    | some m =>
      by_cases hfit : m.toNat >>> node_bits.toNat = 0
      · refine ⟨?_, ?_, ?_⟩
        · simp only [TSIDGenerator.init, hneg, Bool.false_eq_true, if_false, if_neg hcond,
            hfit, ne_eq, not_true_eq_false, reduceIte, not_false_eq_true]
          simp
          omega
        · simp only [TSIDGenerator.init, hneg, Bool.false_eq_true, if_false, if_neg hcond,
            hfit, ne_eq, not_true_eq_false, reduceIte, not_false_eq_true]
          simp [hfit]
        · intro _
          refine ⟨({ node := m.toNat, node_bits := node_bits.toNat, epoch := epoch },
                   { millis := now, counter := rndInit }), ?_⟩
          simp only [TSIDGenerator.init, hneg, Bool.false_eq_true, if_false, if_neg hcond,
            hfit, ne_eq, not_true_eq_false, reduceIte, not_false_eq_true]
      · refine ⟨?_, ?_, ?_⟩
        · simp only [TSIDGenerator.init, hneg, Bool.false_eq_true, if_false, if_neg hcond,
            ne_eq, if_pos hfit]
          simp
          omega
        · simp only [TSIDGenerator.init, hneg, Bool.false_eq_true, if_false, if_neg hcond,
            ne_eq, if_pos hfit]
          simp [hfit]
          omega
        · intro hcontr
          exact absurd (hcontr.2.2 m rfl) hfit

theorem create_snd_eq (p : GenParams) (s : GenState) (now : ℚ) (rnd : ℕ) :
    (TSIDGenerator.create p s now rnd).2
      = packResult p ((TSIDGenerator.create p s now rnd).1) := rfl

theorem counter_bits_le (p : GenParams) : p.counter_bits ≤ 22 := by
  simp only [GenParams.counter_bits, RANDOM_BITS]
  omega

theorem node_counter_bits_sum (p : GenParams) (h : p.node_bits ≤ 20) :
    p.node_bits + p.counter_bits = 22 := by
  simp only [GenParams.counter_bits, RANDOM_BITS]
  omega

theorem packResult_eval (p : GenParams) (s : GenState)
    (hnb : p.node_bits ≤ 20)
    (hm : p.epoch ≤ s.millis)
    (hT : ⌊s.millis - p.epoch⌋ < 2 ^ 42)
    (hc : s.counter < 2 ^ p.counter_bits) :
    (packResult p s).number
      = ⌊s.millis - p.epoch⌋.toNat * 2 ^ 22
        + (p.node % 2 ^ p.node_bits) * 2 ^ p.counter_bits + s.counter := by
  have hmask_c := counter_mask_eq p hnb
  have hmask_n := node_mask_eq p hnb
  have htr : pytrunc (s.millis - p.epoch) = ⌊s.millis - p.epoch⌋ :=
    pytrunc_of_nonneg _ (by linarith)
  have hT0 : (0 : ℤ) ≤ ⌊s.millis - p.epoch⌋ := by
    rw [Int.le_floor]
    push_cast
    linarith
  have hnp : (p.node % 2 ^ p.node_bits) * 2 ^ p.counter_bits + s.counter < 2 ^ 22 := by
    have h1 : p.node % 2 ^ p.node_bits < 2 ^ p.node_bits :=
      Nat.mod_lt _ (Nat.pos_pow_of_pos _ (by norm_num))
    have h2 : (p.node % 2 ^ p.node_bits) * 2 ^ p.counter_bits
        ≤ (2 ^ p.node_bits - 1) * 2 ^ p.counter_bits :=
      Nat.mul_le_mul_right _ (by omega)
    have h3 : (2 ^ p.node_bits - 1) * 2 ^ p.counter_bits + 2 ^ p.counter_bits
        = 2 ^ 22 := by
      rw [Nat.sub_one_mul, Nat.sub_add_cancel (Nat.le_mul_of_pos_left _
        (Nat.pos_pow_of_pos _ (by norm_num))), ← pow_add,
        node_counter_bits_sum p hnb]
    omega
  unfold packResult TSID.ofInt
  simp only [hmask_c, hmask_n, and_mask_eq_mod, Nat.shiftLeft_eq, htr,
    Nat.mod_eq_of_lt hc, RANDOM_BITS]
  set T := ⌊s.millis - p.epoch⌋ with hTdef
  simp only [emod_eq_mod]
  omega

theorem shiftRight_eq_zero_iff (x k : ℕ) : x >>> k = 0 ↔ x < 2 ^ k := by
  rw [Nat.shiftRight_eq_div_pow]
  exact Nat.div_eq_zero_iff (Nat.pos_pow_of_pos _ (by norm_num))

theorem create_same_no_roll (p : GenParams) (s : GenState) (now : ℚ) (rnd : ℕ)
    (h1 : now - s.millis < 1) (h2 : s.counter + 1 < 2 ^ p.counter_bits) :
    TSIDGenerator.create p s now rnd
      = ({ millis := s.millis, counter := s.counter + 1 },
         packResult p { millis := s.millis, counter := s.counter + 1 }) := by
  unfold TSIDGenerator.create
  rw [if_pos h1, if_neg (by simp [shiftRight_eq_zero_iff, h2])]

theorem create_rollover (p : GenParams) (s : GenState) (now : ℚ) (rnd : ℕ)
    (h1 : now - s.millis < 1) (h2 : 2 ^ p.counter_bits ≤ s.counter + 1) :
    TSIDGenerator.create p s now rnd
      = ({ millis := s.millis + 1, counter := 0 },
         packResult p { millis := s.millis + 1, counter := 0 }) := by
  unfold TSIDGenerator.create
  rw [if_pos h1, if_pos (by simp [shiftRight_eq_zero_iff]; omega)]

theorem create_new_ms (p : GenParams) (s : GenState) (now : ℚ) (rnd : ℕ)
    (h1 : ¬(now - s.millis < 1)) :
    TSIDGenerator.create p s now rnd
      = ({ millis := now, counter := rnd &&& p.counter_mask },
         packResult p { millis := now, counter := rnd &&& p.counter_mask }) := by
  unfold TSIDGenerator.create
  rw [if_neg h1]

/-- Witness for C6 at `node = some 1024`, `node_bits = 10` (the spec's
node-too-large example). -/
theorem generator_init_validation_witness :
    (∀ m : ℤ, (some (1024 : ℤ) : Option ℤ) = some m → 0 ≤ m) ∧ (0 : ℕ) < 2 ^ 20 ∧
    ((TSIDGenerator.init (some 1024) 10 TSID_EPOCH 0 0 0 = .error .invalidNodeBits
       ↔ ((10 : ℤ) < 0 ∨ 20 < (10 : ℤ))) ∧
     (TSIDGenerator.init (some 1024) 10 TSID_EPOCH 0 0 0 = .error .nodeTooLarge
       ↔ ((0 : ℤ) ≤ 10 ∧ (10 : ℤ) ≤ 20 ∧
           ∃ m, (some (1024 : ℤ) : Option ℤ) = some m ∧
             m.toNat >>> (10 : ℤ).toNat ≠ 0)) ∧
     (((0 : ℤ) ≤ 10 ∧ (10 : ℤ) ≤ 20 ∧
         (∀ m, (some (1024 : ℤ) : Option ℤ) = some m →
            m.toNat >>> (10 : ℤ).toNat = 0)) →
       ∃ g, TSIDGenerator.init (some 1024) 10 TSID_EPOCH 0 0 0 = .ok g)) :=
  ⟨by intro m hm; cases hm; norm_num, by norm_num,
   generator_init_validation (some 1024) 10 TSID_EPOCH 0 0 0
     (by intro m hm; cases hm; norm_num) (by norm_num)⟩

/-- C1 (amended): consecutive `create()` calls return strictly increasing raw
values provided every observed wall-clock reading is at or after the
generator's epoch and the elapsed milliseconds stay below `2 ^ 42 - 1`.
Here `s` is the state left by the previous call (whose returned value is
`packResult p s`) and `now`/`rnd` are the readings the next call observes;
the claim as frozen (arbitrary readings) is refuted by
the counterexample theorem for readings before the epoch. -/
theorem create_strictly_increasing (p : GenParams) (s : GenState) (now : ℚ) (rnd : ℕ)
    (hnb : p.node_bits ≤ 20)
    (hc : s.counter < 2 ^ p.counter_bits)
    (hm : p.epoch ≤ s.millis)
    (hs : ⌊s.millis - p.epoch⌋ < 2 ^ 42 - 1)
    (hn1 : p.epoch ≤ now)
    (hn2 : ⌊now - p.epoch⌋ < 2 ^ 42) :
    (packResult p s).number < ((TSIDGenerator.create p s now rnd).2).number := by
  have hprev := packResult_eval p s hnb hm (by omega) hc
  have hT0 : (0 : ℤ) ≤ ⌊s.millis - p.epoch⌋ := by
    rw [Int.le_floor]
    push_cast
    linarith
  have hcble := counter_bits_le p
  have hclt22 : s.counter < 2 ^ 22 :=
    lt_of_lt_of_le hc (Nat.pow_le_pow_right (by norm_num) hcble)
  by_cases hsame : now - s.millis < 1
  · by_cases hroll : s.counter + 1 < 2 ^ p.counter_bits
    · rw [create_same_no_roll p s now rnd hsame hroll]
      have hnew := packResult_eval p ⟨s.millis, s.counter + 1⟩ hnb hm
        (show ⌊s.millis - p.epoch⌋ < 2 ^ 42 by omega) hroll
      dsimp at hnew ⊢
      rw [hprev, hnew]
      omega
    · push_neg at hroll
      rw [create_rollover p s now rnd hsame hroll]
      have hfloor : ⌊s.millis + 1 - p.epoch⌋ = ⌊s.millis - p.epoch⌋ + 1 := by
        rw [show s.millis + 1 - p.epoch = (s.millis - p.epoch) + 1 by ring,
          Int.floor_add_one]
      have hnew := packResult_eval p ⟨s.millis + 1, 0⟩ hnb
        (show p.epoch ≤ s.millis + 1 by linarith)
        (show ⌊s.millis + 1 - p.epoch⌋ < 2 ^ 42 by rw [hfloor]; omega)
        (Nat.pos_pow_of_pos _ (by norm_num))
      dsimp at hnew ⊢
      rw [hfloor] at hnew
      rw [hprev, hnew]
      omega
  · rw [create_new_ms p s now rnd hsame]
    push_neg at hsame
    have hc2 : rnd &&& p.counter_mask < 2 ^ p.counter_bits := by
      rw [counter_mask_eq p hnb, and_mask_eq_mod]
      exact Nat.mod_lt _ (Nat.pos_pow_of_pos _ (by norm_num))
    have hfl : ⌊s.millis - p.epoch⌋ + 1 ≤ ⌊now - p.epoch⌋ := by
      rw [← Int.floor_add_one]
      exact Int.floor_le_floor (by linarith)
    have hnew := packResult_eval p ⟨now, rnd &&& p.counter_mask⟩ hnb hn1 hn2 hc2
    dsimp at hnew ⊢
    rw [hprev, hnew]
    omega

/-- Witness for C1 at a zero-node generator whose state sits exactly at the
epoch. -/
theorem create_strictly_increasing_witness :
    (GenParams.node_bits ⟨0, 0, TSID_EPOCH⟩ ≤ 20) ∧
    ((GenState.counter ⟨TSID_EPOCH, 0⟩) < 2 ^ GenParams.counter_bits ⟨0, 0, TSID_EPOCH⟩) ∧
    (GenParams.epoch ⟨0, 0, TSID_EPOCH⟩ ≤ GenState.millis ⟨TSID_EPOCH, 0⟩) ∧
    (⌊GenState.millis ⟨TSID_EPOCH, 0⟩ - GenParams.epoch ⟨0, 0, TSID_EPOCH⟩⌋ < 2 ^ 42 - 1) ∧
    (GenParams.epoch ⟨0, 0, TSID_EPOCH⟩ ≤ TSID_EPOCH) ∧
    (⌊(TSID_EPOCH : ℚ) - GenParams.epoch ⟨0, 0, TSID_EPOCH⟩⌋ < 2 ^ 42) ∧
    (packResult ⟨0, 0, TSID_EPOCH⟩ ⟨TSID_EPOCH, 0⟩).number
      < ((TSIDGenerator.create ⟨0, 0, TSID_EPOCH⟩ ⟨TSID_EPOCH, 0⟩ TSID_EPOCH 7).2).number :=
  ⟨by norm_num, by norm_num [GenParams.counter_bits, RANDOM_BITS], le_refl _,
   by norm_num, le_refl _, by norm_num,
   create_strictly_increasing ⟨0, 0, TSID_EPOCH⟩ ⟨TSID_EPOCH, 0⟩ TSID_EPOCH 7
     (by norm_num) (by norm_num [GenParams.counter_bits, RANDOM_BITS]) (le_refl _)
     (by norm_num) (le_refl _) (by norm_num)⟩

/-- C1 counterexample: the claim as stated (arbitrary wall-clock readings)
is false.  With the default epoch, a generator constructed while the clock
reads half a millisecond BEFORE the epoch (`random_fn` returning 0, node
bits 0) returns raw value 1 from a first call at reading `epoch - 2/5` and
raw value 0 from a second call at reading `epoch + 3/5`: Python's `int()`
truncates both `-1/2` and `3/5` to timestamp 0 while the fresh-millisecond
branch re-seeds the counter to 0, so the sequence strictly decreases. -/
theorem create_monotonicity_cex :
    ((TSIDGenerator.create ⟨0, 0, TSID_EPOCH⟩
        ((TSIDGenerator.create ⟨0, 0, TSID_EPOCH⟩ ⟨TSID_EPOCH - 1/2, 0⟩
            (TSID_EPOCH - 2/5) 0).1) (TSID_EPOCH + 3/5) 0).2).number
      < ((TSIDGenerator.create ⟨0, 0, TSID_EPOCH⟩ ⟨TSID_EPOCH - 1/2, 0⟩
            (TSID_EPOCH - 2/5) 0).2).number := by
  have e1 := create_same_no_roll ⟨0, 0, TSID_EPOCH⟩ ⟨TSID_EPOCH - 1/2, 0⟩
    (TSID_EPOCH - 2/5) 0 (by norm_num) (by norm_num [GenParams.counter_bits, RANDOM_BITS])
  rw [e1]
  have e2 := create_new_ms ⟨0, 0, TSID_EPOCH⟩ ⟨TSID_EPOCH - 1/2, 1⟩
    (TSID_EPOCH + 3/5) 0 (by norm_num)
  dsimp only
  rw [e2]
  dsimp only
  have hz : (0 : ℕ) &&& GenParams.counter_mask ⟨0, 0, TSID_EPOCH⟩ = 0 := Nat.zero_and _
  rw [hz]
  have hv1 : (packResult ⟨0, 0, TSID_EPOCH⟩ ⟨TSID_EPOCH - 1/2, 1⟩).number = 1 := by
    unfold packResult TSID.ofInt
    have ht : pytrunc (TSID_EPOCH - 1/2 - TSID_EPOCH) = 0 := by
      rw [show (TSID_EPOCH : ℚ) - 1/2 - TSID_EPOCH = -(1/2) by ring]
      rw [pytrunc, if_pos (by norm_num)]
      norm_num
    dsimp only
    rw [ht]
    norm_num [GenParams.counter_bits, GenParams.counter_mask, GenParams.node_mask,
      RANDOM_BITS, RANDOM_MASK, emod_eq_mod]
  have hv2 : (packResult ⟨0, 0, TSID_EPOCH⟩ ⟨TSID_EPOCH + 3/5, 0⟩).number = 0 := by
    unfold packResult TSID.ofInt
    have ht : pytrunc (TSID_EPOCH + 3/5 - TSID_EPOCH) = 0 := by
      rw [show (TSID_EPOCH : ℚ) + 3/5 - TSID_EPOCH = 3/5 by ring]
      rw [pytrunc, if_neg (by norm_num)]
      norm_num
    dsimp only
    rw [ht]
    norm_num [GenParams.counter_bits, GenParams.counter_mask, GenParams.node_mask,
      RANDOM_BITS, RANDOM_MASK, emod_eq_mod]
  rw [hv1, hv2]
  norm_num

theorem tsid_random_eq_mod (t : TSID) : t.random = t.number % 2 ^ 22 := by
  rw [TSID.random, show RANDOM_MASK = 2 ^ 22 - 1 from rfl, and_mask_eq_mod]

theorem runGen_same_ms (ep m0 : ℚ) (k : ℕ) (hk : k ≤ 2 ^ 22 - 1) :
    runGen ⟨0, 0, ep⟩ ⟨m0, 0⟩ m0 k = ⟨m0, k⟩ := by
  induction k with
  | zero => rfl
  | succ j ih =>
    have hj : j ≤ 2 ^ 22 - 1 := by omega
    have hstep := create_same_no_roll ⟨0, 0, ep⟩ ⟨m0, j⟩ m0 0 (by norm_num)
      (show j + 1 < 2 ^ 22 by omega)
    simp only [runGen, ih hj, hstep]

/-- C3: for a generator with `node_bits = 0` (so 22 counter bits) and a
`random_fn` that always returns 0, serialized `create()` calls all observing
the same clock reading yield random components `1, 2, 3, …`; the `2 ^ 22`-nd
call overflows the counter, advances the stored millisecond by exactly 1
(so the embedded timestamp component increases by one unit), and resets the
counter to 0 — no call raises (`create` is a total function). -/
theorem same_ms_counter_rollover (ep m0 : ℚ) (hm : ep ≤ m0)
    (hb : ⌊m0 - ep⌋ < 2 ^ 42 - 1) :
    (∀ k, 1 ≤ k → k < 2 ^ 22 →
      ((TSIDGenerator.create ⟨0, 0, ep⟩ (runGen ⟨0, 0, ep⟩ ⟨m0, 0⟩ m0 (k - 1)) m0 0).2).random
          = k ∧
      ((TSIDGenerator.create ⟨0, 0, ep⟩
          (runGen ⟨0, 0, ep⟩ ⟨m0, 0⟩ m0 (k - 1)) m0 0).2).number >>> 22
          = ⌊m0 - ep⌋.toNat) ∧
    (TSIDGenerator.create ⟨0, 0, ep⟩
        (runGen ⟨0, 0, ep⟩ ⟨m0, 0⟩ m0 (2 ^ 22 - 1)) m0 0).1 = ⟨m0 + 1, 0⟩ ∧
    ((TSIDGenerator.create ⟨0, 0, ep⟩
        (runGen ⟨0, 0, ep⟩ ⟨m0, 0⟩ m0 (2 ^ 22 - 1)) m0 0).2).random = 0 ∧
    ((TSIDGenerator.create ⟨0, 0, ep⟩
        (runGen ⟨0, 0, ep⟩ ⟨m0, 0⟩ m0 (2 ^ 22 - 1)) m0 0).2).number >>> 22
        = ⌊m0 - ep⌋.toNat + 1 := by
  have hT0 : (0 : ℤ) ≤ ⌊m0 - ep⌋ := by
    rw [Int.le_floor]
    push_cast
    linarith
  have heval : ∀ c : ℕ, c < 2 ^ 22 →
      (packResult ⟨0, 0, ep⟩ ⟨m0, c⟩).number = ⌊m0 - ep⌋.toNat * 2 ^ 22 + c := by
    intro c hcc
    have h := packResult_eval ⟨0, 0, ep⟩ ⟨m0, c⟩ (by norm_num) hm
      (show ⌊m0 - ep⌋ < 2 ^ 42 by omega) (show c < 2 ^ 22 from hcc)
    simpa using h
  have hfloor : ⌊m0 + 1 - ep⌋ = ⌊m0 - ep⌋ + 1 := by
    rw [show m0 + 1 - ep = (m0 - ep) + 1 by ring, Int.floor_add_one]
  have hroll := packResult_eval ⟨0, 0, ep⟩ ⟨m0 + 1, 0⟩ (by norm_num)
    (show ep ≤ m0 + 1 by linarith)
    (show ⌊m0 + 1 - ep⌋ < 2 ^ 42 by rw [hfloor]; omega)
    (show (0 : ℕ) < 2 ^ 22 by norm_num)
  simp only [hfloor] at hroll
  have hroll2 : (packResult ⟨0, 0, ep⟩ ⟨m0 + 1, 0⟩).number
      = (⌊m0 - ep⌋.toNat + 1) * 2 ^ 22 := by
    have htn : (⌊m0 - ep⌋ + 1).toNat = ⌊m0 - ep⌋.toNat + 1 := by omega
    simpa [htn] using hroll
  refine ⟨?_, ?_, ?_, ?_⟩
  · intro k hk1 hk2
    rw [runGen_same_ms ep m0 (k - 1) (by omega)]
    rw [create_same_no_roll ⟨0, 0, ep⟩ ⟨m0, k - 1⟩ m0 0 (by norm_num)
      (show k - 1 + 1 < 2 ^ 22 by omega)]
    dsimp
    have hk3 : k - 1 + 1 = k := by omega
    rw [hk3]
    rw [tsid_random_eq_mod, heval k hk2]
    constructor
    · omega
    · rw [Nat.shiftRight_eq_div_pow]
      omega
  · rw [runGen_same_ms ep m0 (2 ^ 22 - 1) le_rfl]
    rw [create_rollover ⟨0, 0, ep⟩ ⟨m0, 2 ^ 22 - 1⟩ m0 0 (by norm_num)
      (show (2 ^ 22 : ℕ) ≤ 2 ^ 22 - 1 + 1 by norm_num)]
  · rw [runGen_same_ms ep m0 (2 ^ 22 - 1) le_rfl]
    rw [create_rollover ⟨0, 0, ep⟩ ⟨m0, 2 ^ 22 - 1⟩ m0 0 (by norm_num)
      (show (2 ^ 22 : ℕ) ≤ 2 ^ 22 - 1 + 1 by norm_num)]
    dsimp
    rw [tsid_random_eq_mod, hroll2]
    omega
  · rw [runGen_same_ms ep m0 (2 ^ 22 - 1) le_rfl]
    rw [create_rollover ⟨0, 0, ep⟩ ⟨m0, 2 ^ 22 - 1⟩ m0 0 (by norm_num)
      (show (2 ^ 22 : ℕ) ≤ 2 ^ 22 - 1 + 1 by norm_num)]
    dsimp
    rw [Nat.shiftRight_eq_div_pow, hroll2]
    omega

/-- Witness for C3 with both the epoch and the frozen clock at `TSID_EPOCH`. -/
theorem same_ms_counter_rollover_witness :
    (TSID_EPOCH ≤ TSID_EPOCH) ∧ (⌊(TSID_EPOCH : ℚ) - TSID_EPOCH⌋ < 2 ^ 42 - 1) ∧
    ((∀ k, 1 ≤ k → k < 2 ^ 22 →
      ((TSIDGenerator.create ⟨0, 0, TSID_EPOCH⟩
          (runGen ⟨0, 0, TSID_EPOCH⟩ ⟨TSID_EPOCH, 0⟩ TSID_EPOCH (k - 1)) TSID_EPOCH 0).2).random
          = k ∧
      ((TSIDGenerator.create ⟨0, 0, TSID_EPOCH⟩
          (runGen ⟨0, 0, TSID_EPOCH⟩ ⟨TSID_EPOCH, 0⟩ TSID_EPOCH (k - 1)) TSID_EPOCH 0).2).number >>> 22
          = ⌊(TSID_EPOCH : ℚ) - TSID_EPOCH⌋.toNat) ∧
    (TSIDGenerator.create ⟨0, 0, TSID_EPOCH⟩
        (runGen ⟨0, 0, TSID_EPOCH⟩ ⟨TSID_EPOCH, 0⟩ TSID_EPOCH (2 ^ 22 - 1)) TSID_EPOCH 0).1
        = ⟨TSID_EPOCH + 1, 0⟩ ∧
    ((TSIDGenerator.create ⟨0, 0, TSID_EPOCH⟩
        (runGen ⟨0, 0, TSID_EPOCH⟩ ⟨TSID_EPOCH, 0⟩ TSID_EPOCH (2 ^ 22 - 1)) TSID_EPOCH 0).2).random
        = 0 ∧
    ((TSIDGenerator.create ⟨0, 0, TSID_EPOCH⟩
        (runGen ⟨0, 0, TSID_EPOCH⟩ ⟨TSID_EPOCH, 0⟩ TSID_EPOCH (2 ^ 22 - 1)) TSID_EPOCH 0).2).number >>> 22
        = ⌊(TSID_EPOCH : ℚ) - TSID_EPOCH⌋.toNat + 1) :=
  ⟨le_refl _, by norm_num,
   same_ms_counter_rollover TSID_EPOCH TSID_EPOCH (le_refl _) (by norm_num)⟩

end Tsidpy
